import Mathlib

/-!
Verification of the job-normalization pipeline of `real_time_data_fetcher.py`
(class `AdzunaJobFetcher`): salary extraction, category / experience / work-type
classification, skill extraction, location cleaning, date parsing, and the
(title, company) deduplication performed in `process_jobs_data`.

Strings are modelled as `List Char`.  Python truthiness of an optional numeric
field (`None` and `0` are falsy) is `pyTruthy`; of a string (empty is falsy) is
`truthyStr`.
-/

namespace Navada

/-- Convert a string literal to the `List Char` representation used throughout. -/
def str (s : String) : List Char := s.data

/-- Model of Python `str.lower()` (ASCII case folding, as performed by the code
on its ASCII keyword vocabulary). -/
def pyLower (s : List Char) : List Char := s.map Char.toLower

/-- Does `hay` start with `needle`? -/
def startsWithL : List Char → List Char → Bool
  | [], _ => true
  | _ :: _, [] => false
  | a :: as, b :: bs => a == b && startsWithL as bs

/-- Model of the Python substring test `needle in hay`. -/
def isSub (needle : List Char) : List Char → Bool
  | [] => startsWithL needle []
  | c :: rest => startsWithL needle (c :: rest) || isSub needle rest

/-- Python truthiness of an optional number: `None` and `0` are falsy. -/
def pyTruthy : Option Nat → Bool
  | none => false
  | some n => n != 0

/-- Python truthiness of a string: only the empty string is falsy. -/
def truthyStr (l : List Char) : Bool := !l.isEmpty

/-- The whitespace class stripped by Python `str.strip()` (ASCII part). -/
def pySpaceChar (c : Char) : Bool :=
  c == ' ' || c == '\t' || c == '\n' || c == '\r' || c == '\x0b' || c == '\x0c'

/-- Remove leading whitespace (left half of Python `str.strip()`). -/
def lTrim (s : List Char) : List Char := s.dropWhile pySpaceChar

/-- Remove trailing whitespace (right half of Python `str.strip()`). -/
def rTrim (s : List Char) : List Char := (s.reverse.dropWhile pySpaceChar).reverse

/-- Model of Python `str.strip()`. -/
def stripPy (s : List Char) : List Char := rTrim (lTrim s)

/-- Model of Python `str.title()`: a cased character following a non-cased one
is uppercased, every other cased character is lowercased. -/
def pyTitleAux : Bool → List Char → List Char
  | _, [] => []
  | prev, c :: r =>
    if c.isAlpha then
      (if prev then c.toLower else c.toUpper) :: pyTitleAux true r
    else
      c :: pyTitleAux false r

/-- Model of Python `str.title()`. -/
def pyTitle (s : List Char) : List Char := pyTitleAux false s

/-! ### The three salary regexes of `extract_salary`

`re.search` semantics: scan start positions left to right; at a position the
pieces match with greedy, ordered backtracking.  Alternatives for one piece are
listed longest/consuming first and combined with `List.findSome?`, which tries
them in priority order and lets an inner failure backtrack to the next
alternative — exactly the behaviour of the Python regex engine on these
patterns. -/

/-- Alternatives for the regex piece `\d{2,3}` (greedy: three digits first). -/
def digits23 : List Char → List (List Char × List Char)
  | a :: b :: c :: r =>
    if a.isDigit && b.isDigit && c.isDigit then [([a, b, c], r), ([a, b], c :: r)]
    else if a.isDigit && b.isDigit then [([a, b], c :: r)]
    else []
  | [a, b] => if a.isDigit && b.isDigit then [([a, b], [])] else []
  | _ => []

/-- Alternatives for the regex piece `,?` (greedy: consume the comma first). -/
def optComma : List Char → List (List Char)
  | ',' :: r => [r, ',' :: r]
  | r => [r]

/-- The regex piece `\d{3}`: exactly three digits. -/
def digits3 : List Char → Option (List Char × List Char)
  | a :: b :: c :: r =>
    if a.isDigit && b.isDigit && c.isDigit then some ([a, b, c], r) else none
  | _ => none

/-- The regex piece `\s*-\s*` (deterministic: `-` is not whitespace, so the
greedy whitespace runs never backtrack). -/
def wsDashWs (s : List Char) : Option (List Char) :=
  match s.dropWhile pySpaceChar with
  | '-' :: r => some (r.dropWhile pySpaceChar)
  | _ => none

/-- Numeric value of a digit string, as Python `int` on concatenated groups. -/
def numOf (ds : List Char) : Nat :=
  ds.foldl (fun n c => 10 * n + (c.toNat - 48)) 0

/-- Match of pattern 1, `£(\d{2,3}),?(\d{3})\s*-\s*£(\d{2,3}),?(\d{3})`,
anchored at the start of `s`; yields `(int(g1+g2), int(g3+g4))`. -/
def matchP1At : List Char → Option (Nat × Nat)
  | '£' :: r0 =>
    (digits23 r0).findSome? fun p1 =>
      (optComma p1.2).findSome? fun r2 =>
        match digits3 r2 with
        | none => none
        | some p2 =>
          match wsDashWs p2.2 with
          | none => none
          | some r4 =>
            match r4 with
            | '£' :: r5 =>
              (digits23 r5).findSome? fun p3 =>
                (optComma p3.2).findSome? fun r7 =>
                  match digits3 r7 with
                  | none => none
                  | some p4 => some (numOf (p1.1 ++ p2.1), numOf (p3.1 ++ p4.1))
            | _ => none
  | _ => none

/-- Match of pattern 2, `£(\d{2,3})k\s*-\s*£(\d{2,3})k`, anchored at the start
of `s`; yields `(int(g1)*1000, int(g2)*1000)`. -/
def matchP2At : List Char → Option (Nat × Nat)
  | '£' :: r0 =>
    (digits23 r0).findSome? fun p1 =>
      match p1.2 with
      | 'k' :: r1 =>
        match wsDashWs r1 with
        | none => none
        | some r2 =>
          match r2 with
          | '£' :: r3 =>
            (digits23 r3).findSome? fun p2 =>
              match p2.2 with
              | 'k' :: _ => some (numOf p1.1 * 1000, numOf p2.1 * 1000)
              | _ => none
          | _ => none
      | _ => none
  | _ => none

/-- Match of pattern 3, `(\d{2,3}),?(\d{3})\s*-\s*(\d{2,3}),?(\d{3})`, anchored
at the start of `s`. -/
def matchP3At (s : List Char) : Option (Nat × Nat) :=
  (digits23 s).findSome? fun p1 =>
    (optComma p1.2).findSome? fun r2 =>
      match digits3 r2 with
      | none => none
      | some p2 =>
        match wsDashWs p2.2 with
        | none => none
        | some r4 =>
          (digits23 r4).findSome? fun p3 =>
            (optComma p3.2).findSome? fun r7 =>
              match digits3 r7 with
              | none => none
              | some p4 => some (numOf (p1.1 ++ p2.1), numOf (p3.1 ++ p4.1))

/-- `re.search`: leftmost start position wins. -/
def searchWith (f : List Char → Option (Nat × Nat)) : List Char → Option (Nat × Nat)
  | [] => f []
  | c :: r =>
    match f (c :: r) with
    | some v => some v
    | none => searchWith f r

/-- The `for pattern in salary_patterns` loop of `extract_salary`: the first
pattern with a match anywhere in the description wins. -/
def salarySearch (d : List Char) : Option (Nat × Nat) :=
  match searchWith matchP1At d with
  | some v => some v
  | none =>
    match searchWith matchP2At d with
    | some v => some v
    | none => searchWith matchP3At d

/-! ### Salary extraction -/

/-- The title-keyword fallback table at the end of `extract_salary`. -/
def salary_estimate (title : List Char) : Nat × Nat :=
  let t := pyLower title
  if isSub (str "senior") t || isSub (str "lead") t then (70000, 110000)
  else if isSub (str "principal") t || isSub (str "head of") t then (120000, 180000)
  else if isSub (str "junior") t || isSub (str "graduate") t then (35000, 55000)
  else (50000, 75000)

/-- A raw Adzuna posting, holding exactly the upstream fields
`process_jobs_data` and its helpers read. -/
structure RawJob where
  title : List Char
  company_display_name : List Char
  location_display_name : List Char
  description : List Char
  salary_min : Option Nat
  salary_max : Option Nat
  created : Option (List Char)
  deriving DecidableEq, Repr

/-- First phase of `extract_salary`: when either upstream bound is falsy
(`None` or `0`), try the description regexes; a match overwrites both bounds. -/
def salary_step1 (j : RawJob) : Option Nat × Option Nat :=
  if pyTruthy j.salary_min && pyTruthy j.salary_max then
    (j.salary_min, j.salary_max)
  else
    match salarySearch (pyLower j.description) with
    | some (a, b) => (some a, some b)
    | none => (j.salary_min, j.salary_max)

/-- `extract_salary`: upstream bounds, else description regexes, else the
title-keyword estimate table. -/
def extract_salary (j : RawJob) : Option Nat × Option Nat :=
  match salary_step1 j with
  | (smin, smax) =>
    if pyTruthy smin && pyTruthy smax then (smin, smax)
    else (some (salary_estimate j.title).1, some (salary_estimate j.title).2)

/-! ### Classifiers -/

/-- `classify_job_category`: first keyword group matching
`(title + ' ' + description).lower()` wins; default `Engineering`. -/
def classify_job_category (title description : List Char) : List Char :=
  let text := pyLower (title ++ [' '] ++ description)
  if isSub (str "research") text || isSub (str "scientist") text ||
      isSub (str "phd") text then
    str "Research"
  else if isSub (str "product manager") text || isSub (str "product owner") text ||
      isSub (str "strategy") text then
    str "Product & Management"
  else if isSub (str "nlp") text || isSub (str "natural language") text ||
      isSub (str "computer vision") text || isSub (str "cv engineer") text then
    str "Specialized"
  else if isSub (str "data scientist") text || isSub (str "data analyst") text ||
      isSub (str "analytics") text then
    str "Data Science"
  else
    str "Engineering"

/-- `extract_experience_level`: keyword groups over
`(title + ' ' + description).lower()`; default `Mid`. -/
def extract_experience_level (title description : List Char) : List Char :=
  let text := pyLower (title ++ [' '] ++ description)
  if isSub (str "principal") text || isSub (str "head of") text ||
      isSub (str "director") text then
    str "Principal"
  else if isSub (str "lead") text || isSub (str "team lead") text ||
      isSub (str "tech lead") text then
    str "Lead"
  else if isSub (str "senior") text || isSub (str "sr.") text ||
      isSub (str "sr ") text then
    str "Senior"
  else if isSub (str "junior") text || isSub (str "jr.") text ||
      isSub (str "graduate") text || isSub (str "entry") text then
    str "Entry"
  else
    str "Mid"

/-- `extract_work_type`: keyword groups over `description.lower()`; default
`Hybrid`. -/
def extract_work_type (description : List Char) : List Char :=
  let text := pyLower description
  if isSub (str "remote") text || isSub (str "work from home") text ||
      isSub (str "wfh") text then
    if isSub (str "hybrid") text || isSub (str "flexible") text ||
        isSub (str "office days") text then
      str "Hybrid"
    else
      str "Remote"
  else if isSub (str "on-site") text || isSub (str "office-based") text ||
      isSub (str "in office") text then
    str "On-site"
  else
    str "Hybrid"

/-! ### Skill extraction -/

/-- The fixed skill vocabulary of `extract_skills`, in source order. -/
def skill_keywords : List (List Char) :=
  [str "python", str "tensorflow", str "pytorch", str "scikit-learn",
   str "pandas", str "numpy",
   str "aws", str "azure", str "gcp", str "docker", str "kubernetes",
   str "sql", str "mongodb",
   str "spark", str "hadoop", str "kafka", str "airflow", str "mlflow",
   str "cuda", str "git",
   str "transformers", str "langchain", str "openai", str "hugging face",
   str "bert",
   str "react", str "javascript", str "node.js", str "java", str "scala",
   str "r", str "matlab",
   str "tableau", str "power bi", str "jupyter", str "anaconda", str "linux"]

/-- The `found_skills` list built by the loop of `extract_skills` before the
`[:6]` cap: every vocabulary keyword found (case-insensitively) in the
description, title-cased, in vocabulary order. -/
def found_skills (description : List Char) : List (List Char) :=
  (skill_keywords.filter fun sk => isSub sk (pyLower description)).map pyTitle

/-- `extract_skills`: vocabulary entries found (case-insensitively) in the
description, title-cased, in vocabulary order, capped at six. -/
def extract_skills (description : List Char) : List (List Char) :=
  let text := pyLower description
  (((skill_keywords.filter fun sk => isSub sk text).map pyTitle).take 6)

/-! ### Location cleaning -/

/-- The fixed canonicalization table of `clean_location`. -/
def location_mapping : List (List Char × List Char) :=
  [(str "Greater London", str "London"),
   (str "City of London", str "London"),
   (str "Central London", str "London"),
   (str "Manchester, Greater Manchester", str "Manchester"),
   (str "Birmingham, West Midlands", str "Birmingham"),
   (str "Edinburgh, Scotland", str "Edinburgh"),
   (str "Glasgow, Scotland", str "Glasgow"),
   (str "Cambridge, Cambridgeshire", str "Cambridge"),
   (str "Oxford, Oxfordshire", str "Oxford"),
   (str "Bristol, South West", str "Bristol"),
   (str "Leeds, West Yorkshire", str "Leeds"),
   (str "Newcastle upon Tyne", str "Newcastle")]

/-- Python `dict.get(k, default)` over the association-list table. -/
def mapGetD (m : List (List Char × List Char)) (k d : List Char) : List Char :=
  match m.find? fun p => p.1 == k with
  | some p => p.2
  | none => d

/-- `clean_location`: falsy (empty) input gives `UK`; otherwise the input is
stripped and looked up in the table, defaulting to the stripped string. -/
def clean_location (location : List Char) : List Char :=
  if truthyStr location = false then str "UK"
  else
    let location := stripPy location
    mapGetD location_mapping location location

/-! ### Date parsing

`parse_date` calls the standard-library `datetime.fromisoformat` on the input
with every `Z` replaced by `+00:00`, and returns `datetime.now() -
timedelta(days=1)` when anything goes wrong (including `None` input). -/

/-- A parsed `datetime` value: date, time, microseconds and an optional UTC
offset in minutes. -/
structure PyDatetime where
  year : Nat
  month : Nat
  day : Nat
  hour : Nat
  minute : Nat
  second : Nat
  microsecond : Nat
  offsetMinutes : Option Int
  deriving DecidableEq, Repr

/-- Read exactly `n` ASCII digits, returning their value. -/
def grabDigits : Nat → Nat → List Char → Option (Nat × List Char)
  | 0, acc, s => some (acc, s)
  | n + 1, acc, c :: s =>
    if c.isDigit then grabDigits n (acc * 10 + (c.toNat - 48)) s else none
  | _ + 1, _, [] => none

/-- Fractional seconds: `.` followed by exactly three or six digits. -/
def parseFraction (s : List Char) : Option (Nat × List Char) :=
  match s with
  | '.' :: r =>
    match grabDigits 6 0 r with
    | some (v, r6) => some (v, r6)
    | none =>
      match grabDigits 3 0 r with
      | some (v, r3) => some (v * 1000, r3)
      | none => none
  | _ => none

/-- UTC offset: sign, `HH:MM`, optional `:SS` (seconds ignored in the model). -/
def parseOffset (s : List Char) : Option (Int × List Char) :=
  match s with
  | sign :: r =>
    if sign == '+' || sign == '-' then
      match grabDigits 2 0 r with
      | some (oh, ':' :: r2) =>
        match grabDigits 2 0 r2 with
        | some (om, r3) =>
          if oh ≤ 23 && om ≤ 59 then
            let mins : Int := Int.ofNat (oh * 60 + om)
            let signed := if sign == '-' then -mins else mins
            match r3 with
            | ':' :: r4 =>
              match grabDigits 2 0 r4 with
              | some (os, r5) => if os ≤ 59 then some (signed, r5) else none
              | none => none
            | _ => some (signed, r3)
          else none
        | none => none
      | _ => none
    else none
  | [] => none

/-- Model of the standard-library `datetime.fromisoformat` (simplified: the
day-of-month bound is a uniform 31, and any single character may separate date
and time, as in Python 3.10). -/
def fromisoformat (s : List Char) : Option PyDatetime :=
  match grabDigits 4 0 s with
  | none => none
  | some (y, s1) =>
    match s1 with
    | '-' :: s2 =>
      match grabDigits 2 0 s2 with
      | none => none
      | some (mo, s3) =>
        match s3 with
        | '-' :: s4 =>
          match grabDigits 2 0 s4 with
          | none => none
          | some (d, s5) =>
            if 1 ≤ mo && mo ≤ 12 && 1 ≤ d && d ≤ 31 then
              match s5 with
              | [] => some ⟨y, mo, d, 0, 0, 0, 0, none⟩
              | _ :: s6 =>
                match grabDigits 2 0 s6 with
                | none => none
                | some (h, s7) =>
                  let (mi, se, us, s8) :=
                    match s7 with
                    | ':' :: s7a =>
                      match grabDigits 2 0 s7a with
                      | none => (0, 0, 0, s7)
                      | some (mi, s7b) =>
                        match s7b with
                        | ':' :: s7c =>
                          match grabDigits 2 0 s7c with
                          | none => (mi, 0, 0, s7b)
                          | some (se, s7d) =>
                            match parseFraction s7d with
                            | some (us, s7e) => (mi, se, us, s7e)
                            | none => (mi, se, 0, s7d)
                        | _ => (mi, 0, 0, s7b)
                    | _ => (0, 0, 0, s7)
                  if h ≤ 23 && mi ≤ 59 && se ≤ 59 then
                    match s8 with
                    | [] => some ⟨y, mo, d, h, mi, se, us, none⟩
                    | _ =>
                      match parseOffset s8 with
                      | some (off, []) => some ⟨y, mo, d, h, mi, se, us, some off⟩
                      | _ => none
                  else none
            else none
        | _ => none
    | _ => none

/-- Python `date_str.replace('Z', '+00:00')`: every `Z` becomes `+00:00`. -/
def replaceZ (s : List Char) : List Char :=
  s.flatMap fun c => if c == 'Z' then str "+00:00" else [c]

/-- Result of `parse_date`: a parsed datetime, or the fallback value
`datetime.now() - timedelta(days=1)`. -/
inductive DateResult where
  | parsed (d : PyDatetime)
  | yesterday
  deriving DecidableEq, Repr

/-- `parse_date`: replace `Z` with `+00:00` and parse; any failure — including
a missing (`None`) input, whose `.replace` call raises — yields the
one-day-before-now fallback instead of an exception. -/
def parse_date (o : Option (List Char)) : DateResult :=
  match o with
  | none => .yesterday
  | some s =>
    match fromisoformat (replaceZ s) with
    | some d => .parsed d
    | none => .yesterday

/-! ### The normalized Job record and `process_jobs_data` -/

/-- A normalized Job record (the dictionary built in `process_jobs_data`,
restricted to the derived fields; `salary_avg` is the exact rational value of
the Python float division). -/
structure Job where
  title : List Char
  company : List Char
  location : List Char
  category : List Char
  experience_level : List Char
  work_type : List Char
  salary_min : Option Nat
  salary_max : Option Nat
  salary_avg : Option ℚ
  required_skills : List Char
  description : List Char
  posted_date : DateResult
  deriving DecidableEq, Repr

/-- Value of an optional salary bound inside the average formula. -/
def ratOfOpt (o : Option Nat) : ℚ := ((o.getD 0 : Nat) : ℚ)

/-- Normalization of one raw posting into a Job record, as in the loop body of
`process_jobs_data` (all operations are total, so the `except` branch of the
loop is unreachable in the model). -/
def processJob (j : RawJob) : Job :=
  { title := j.title
    company := j.company_display_name
    location := clean_location j.location_display_name
    category := classify_job_category j.title j.description
    experience_level := extract_experience_level j.title j.description
    work_type := extract_work_type j.description
    salary_min := (extract_salary j).1
    salary_max := (extract_salary j).2
    salary_avg :=
      if pyTruthy (extract_salary j).1 && pyTruthy (extract_salary j).2 then
        some ((ratOfOpt (extract_salary j).1 + ratOfOpt (extract_salary j).2) / 2)
      else none
    required_skills := List.intercalate (str ", ") (extract_skills j.description)
    description := j.description.take 500 ++ str "..."
    posted_date := parse_date j.created }

/-- The deduplication key: the `subset=['title', 'company']` columns. -/
def jobKey (j : Job) : List Char × List Char := (j.title, j.company)

/-- `df.drop_duplicates(subset=['title', 'company'], keep='first')`: keep a row
exactly when its key has not appeared earlier. -/
def dedupAux (seen : List (List Char × List Char)) : List Job → List Job
  | [] => []
  | j :: rest =>
    if jobKey j ∈ seen then dedupAux seen rest
    else j :: dedupAux (jobKey j :: seen) rest

/-- The deduplication pass of `process_jobs_data`. -/
def drop_duplicates (l : List Job) : List Job := dedupAux [] l

/-- `process_jobs_data`: normalize every raw posting in fetch order, then
deduplicate on (title, company) keeping the first occurrence. -/
def process_jobs_data (raw : List RawJob) : List Job :=
  drop_duplicates (raw.map processJob)

/-! ### Helper lemmas -/

theorem pyTruthy_eq_true {o : Option Nat} (h : pyTruthy o = true) :
    ∃ n, o = some n ∧ 0 < n := by
  cases o with
  | none => simp [pyTruthy] at h
  | some n =>
    refine ⟨n, rfl, ?_⟩
    simp [pyTruthy] at h
    omega

theorem salary_estimate_bounds (t : List Char) :
    0 < (salary_estimate t).1 ∧ 0 < (salary_estimate t).2 ∧
      (salary_estimate t).1 ≤ (salary_estimate t).2 := by
  simp only [salary_estimate]
  split_ifs <;> decide

theorem extract_salary_shape (j : RawJob) :
    ∃ a b, extract_salary j = (some a, some b) ∧ 0 < a ∧ 0 < b := by
  rcases hstep : salary_step1 j with ⟨smin, smax⟩
  have hx : extract_salary j =
      if pyTruthy smin && pyTruthy smax then (smin, smax)
      else (some (salary_estimate j.title).1, some (salary_estimate j.title).2) := by
    unfold extract_salary
    rw [hstep]
  cases h : pyTruthy smin && pyTruthy smax with
  | true =>
    have h2 : pyTruthy smin = true ∧ pyTruthy smax = true := by simpa using h
    obtain ⟨a, ha, hapos⟩ := pyTruthy_eq_true h2.1
    obtain ⟨b, hb, hbpos⟩ := pyTruthy_eq_true h2.2
    refine ⟨a, b, ?_, hapos, hbpos⟩
    rw [hx, if_pos h, ha, hb]
  | false =>
    obtain ⟨h1, h2, _⟩ := salary_estimate_bounds j.title
    refine ⟨_, _, ?_, h1, h2⟩
    rw [hx, if_neg (by simp [h])]

/-- Removing partially-present upstream salary fields does not change
`extract_salary`: a falsy bound forces the regex/estimate path, which never
reads the surviving upstream value. -/
theorem extract_salary_ignores_partial (j : RawJob)
    (h : (pyTruthy j.salary_min && pyTruthy j.salary_max) = false) :
    extract_salary j =
      extract_salary { j with salary_min := none, salary_max := none } := by
  have hstep2 : salary_step1 j =
      (match salarySearch (pyLower j.description) with
        | some (a, b) => (some a, some b)
        | none => (j.salary_min, j.salary_max)) := by
    simp [salary_step1, h]
  have hstep : salary_step1 { j with salary_min := none, salary_max := none } =
      (match salarySearch (pyLower j.description) with
        | some (a, b) => (some a, some b)
        | none => (none, none)) := by
    simp [salary_step1, pyTruthy]
  cases hs : salarySearch (pyLower j.description) with
  | some v =>
    obtain ⟨a, b⟩ := v
    have e1 : salary_step1 j = (some a, some b) := by rw [hstep2, hs]
    have e2 : salary_step1 { j with salary_min := none, salary_max := none } =
        (some a, some b) := by rw [hstep, hs]
    unfold extract_salary
    rw [e1, e2]
  | none =>
    have e1 : salary_step1 j = (j.salary_min, j.salary_max) := by rw [hstep2, hs]
    have e2 : salary_step1 { j with salary_min := none, salary_max := none } =
        (none, none) := by rw [hstep, hs]
    unfold extract_salary
    rw [e1, e2]
    simp only [h]
    rfl

theorem dedupAux_sublist (seen : List (List Char × List Char)) (l : List Job) :
    (dedupAux seen l).Sublist l := by
  induction l generalizing seen with
  | nil => simp [dedupAux]
  | cons j rest ih =>
    simp only [dedupAux]
    split_ifs with hmem
    · exact (ih seen).trans (List.sublist_cons_self j rest)
    · exact (ih _).cons₂ j

theorem mem_dedupAux {seen : List (List Char × List Char)} {l : List Job} {j : Job}
    (hj : j ∈ dedupAux seen l) : jobKey j ∉ seen := by
  induction l generalizing seen with
  | nil => simp [dedupAux] at hj
  | cons a rest ih =>
    simp only [dedupAux] at hj
    split_ifs at hj with hmem
    · exact ih hj
    · rcases List.mem_cons.mp hj with rfl | hj2
      · exact hmem
      · intro hin
        exact ih hj2 (List.mem_cons_of_mem _ hin)

theorem dedupAux_pairwise (seen : List (List Char × List Char)) (l : List Job) :
    (dedupAux seen l).Pairwise fun a b => jobKey a ≠ jobKey b := by
  induction l generalizing seen with
  | nil => simp [dedupAux]
  | cons a rest ih =>
    simp only [dedupAux]
    split_ifs with hmem
    · exact ih seen
    · refine List.Pairwise.cons ?_ (ih _)
      intro b hb hkey
      exact mem_dedupAux hb (hkey ▸ List.mem_cons_self _ _)

theorem dedupAux_find? (seen : List (List Char × List Char)) (l : List Job)
    (k : List Char × List Char) (hk : k ∉ seen) :
    (dedupAux seen l).find? (fun j => decide (jobKey j = k)) =
      l.find? fun j => decide (jobKey j = k) := by
  induction l generalizing seen with
  | nil => simp [dedupAux]
  | cons a rest ih =>
    simp only [dedupAux]
    split_ifs with hmem
    · have hne : ¬ jobKey a = k := fun he => hk (he ▸ hmem)
      rw [List.find?_cons_of_neg _ (by simpa using hne), ih seen hk]
    · by_cases he : jobKey a = k
      · rw [List.find?_cons_of_pos _ (by simpa using he),
          List.find?_cons_of_pos _ (by simpa using he)]
      · rw [List.find?_cons_of_neg _ (by simpa using he),
          List.find?_cons_of_neg _ (by simpa using he)]
        refine ih _ ?_
        intro hin
        rcases List.mem_cons.mp hin with h1 | h2
        · exact he h1.symm
        · exact hk h2

theorem dedupAux_eq_self {l : List Job} (hl : l.Pairwise fun a b => jobKey a ≠ jobKey b)
    (seen : List (List Char × List Char)) (hseen : ∀ j ∈ l, jobKey j ∉ seen) :
    dedupAux seen l = l := by
  induction l generalizing seen with
  | nil => simp [dedupAux]
  | cons a rest ih =>
    simp only [dedupAux]
    rw [if_neg (hseen a (List.mem_cons_self a rest))]
    congr 1
    refine ih (List.Pairwise.of_cons hl) _ ?_
    intro b hb hin
    rcases List.mem_cons.mp hin with h1 | h2
    · exact (List.pairwise_cons.mp hl).1 b hb h1.symm
    · exact hseen b (List.mem_cons_of_mem _ hb) h2

/-! ### Lemmas about `strip` -/

theorem dropWhile_idem (p : Char → Bool) (l : List Char) :
    List.dropWhile p (List.dropWhile p l) = List.dropWhile p l := by
  induction l with
  | nil => rfl
  | cons a t ih =>
    cases h : p a with
    | true => simp [List.dropWhile_cons, h, ih]
    | false => simp [List.dropWhile_cons, h]

/-- The first character, if any, is not stripped whitespace. -/
def noLead (l : List Char) : Bool :=
  match l with
  | [] => true
  | c :: _ => !pySpaceChar c

theorem noLead_lTrim (l : List Char) : noLead (lTrim l) = true := by
  induction l with
  | nil => rfl
  | cons a t ih =>
    cases h : pySpaceChar a with
    | true => simpa [lTrim, List.dropWhile_cons, h] using ih
    | false => simp [noLead, lTrim, List.dropWhile_cons, h]

theorem lTrim_of_noLead {l : List Char} (h : noLead l = true) : lTrim l = l := by
  cases l with
  | nil => rfl
  | cons c r =>
    simp only [noLead, Bool.not_eq_true'] at h
    simp [lTrim, List.dropWhile_cons, h]

theorem rTrim_append (l : List Char) : ∃ t, l = rTrim l ++ t := by
  refine ⟨(l.reverse.takeWhile pySpaceChar).reverse, ?_⟩
  conv_lhs =>
    rw [← List.reverse_reverse l,
      ← List.takeWhile_append_dropWhile (p := pySpaceChar) (l := l.reverse)]
  rw [List.reverse_append]
  rfl

theorem noLead_rTrim {l : List Char} (h : noLead l = true) : noLead (rTrim l) = true := by
  obtain ⟨t, ht⟩ := rTrim_append l
  cases hr : rTrim l with
  | nil => rfl
  | cons c r =>
    rw [hr] at ht
    rw [ht] at h
    simpa [noLead] using h

theorem rTrim_idem (l : List Char) : rTrim (rTrim l) = rTrim l := by
  unfold rTrim
  rw [List.reverse_reverse, dropWhile_idem]

theorem stripPy_idem (l : List Char) : stripPy (stripPy l) = stripPy l := by
  unfold stripPy
  rw [lTrim_of_noLead (noLead_rTrim (noLead_lTrim l)), rTrim_idem]

/-! ### Concrete raw postings used by the claim theorems -/

/-- Raw posting of scenario C: title `Senior Data Scientist`, no upstream
salary, no salary text in the description. -/
def rawC1 : RawJob :=
  { title := str "Senior Data Scientist"
    company_display_name := str "Acme Analytics"
    location_display_name := str "London"
    description := str "Work on models."
    salary_min := none
    salary_max := none
    created := none }

/-- Raw posting with reversed upstream salary bounds. -/
def rawC2up : RawJob :=
  { title := str "Data Engineer"
    company_display_name := str "Pipeline Ltd"
    location_display_name := str "Leeds"
    description := str "Build pipelines."
    salary_min := some 80000
    salary_max := some 50000
    created := none }

/-- Raw posting whose description states a reversed salary range. -/
def rawC2rx : RawJob :=
  { title := str "Data Engineer"
    company_display_name := str "Pipeline Ltd"
    location_display_name := str "Leeds"
    description := str "Pay £80,000 - £50,000 for this role."
    salary_min := none
    salary_max := none
    created := none }

/-- Raw posting with falsy upstream bounds and no salary text. -/
def rawC2w : RawJob :=
  { title := str "AI Engineer"
    company_display_name := str "Acme"
    location_display_name := str "Bristol"
    description := str "Great role."
    salary_min := none
    salary_max := none
    created := none }

/-- Raw posting of scenario A: salary range only in the description text. -/
def rawC3 : RawJob :=
  { title := str "Machine Learning Engineer"
    company_display_name := str "DeepCo"
    location_display_name := str "London"
    description := str "Salary £50,000 - £80,000 plus benefits"
    salary_min := none
    salary_max := none
    created := none }

/-- First posting of scenario B. -/
def rawML1 : RawJob :=
  { title := str "ML Engineer"
    company_display_name := str "Acme"
    location_display_name := str "Leeds"
    description := str "First posting about MLOps."
    salary_min := none
    salary_max := none
    created := none }

/-- Second posting of scenario B: same title and company, different text. -/
def rawML2 : RawJob :=
  { title := str "ML Engineer"
    company_display_name := str "Acme"
    location_display_name := str "Leeds"
    description := str "Second posting, different text entirely."
    salary_min := none
    salary_max := none
    created := none }

/-- Raw posting with a partially-present upstream salary. -/
def rawC10 : RawJob :=
  { title := str "Data Analyst"
    company_display_name := str "Numbers plc"
    location_display_name := str "Oxford"
    description := str "A role."
    salary_min := some 40000
    salary_max := none
    created := none }

/-- A raw posting with its upstream salary fields removed. -/
def clearSalary (j : RawJob) : RawJob :=
  { j with salary_min := none, salary_max := none }

/-! ### Claim C1 -/

/-- C1 counterexample: on the raw posting titled `Senior Data Scientist` with
no salary data, normalization does assign the 70000–110000 senior bucket, but
the category is not `Data Science`, refuting the claim at this input. -/
theorem C1_counterexample :
    (processJob rawC1).salary_min = some 70000 ∧
    (processJob rawC1).salary_max = some 110000 ∧
    (processJob rawC1).category ≠ str "Data Science" := by
  decide

/-- C1 (amended): for the raw posting titled `Senior Data Scientist` with no
upstream salary fields and no salary text, normalization assigns the estimate
bucket salary_min = 70000 and salary_max = 110000 (senior keyword match) and
assigns category `Research`, because the `scientist` keyword matches the
Research branch before the Data Science branch is ever consulted. -/
theorem C1_amended_thm :
    (processJob rawC1).salary_min = some 70000 ∧
    (processJob rawC1).salary_max = some 110000 ∧
    (processJob rawC1).category = str "Research" := by
  decide

/-! ### Claim C2 -/

/-- C2 counterexample: a posting with upstream bounds 80000/50000 and a posting
whose description reads `£80,000 - £50,000` are both normalized with
salary_min = 80000 greater than salary_max = 50000, refuting the claim for the
upstream-field and description-regex origins. -/
theorem C2_counterexample :
    (processJob rawC2up).salary_min = some 80000 ∧
    (processJob rawC2up).salary_max = some 50000 ∧
    (processJob rawC2rx).salary_min = some 80000 ∧
    (processJob rawC2rx).salary_max = some 50000 ∧
    ¬ (80000 ≤ 50000) := by
  decide

/-- C2 (amended): when both salary bounds come from the title-keyword estimate
table — both upstream bounds falsy and no description regex match — the
normalized record satisfies salary_min ≤ salary_max; bounds taken from the
upstream fields or from the description regex are copied without an ordering
check. -/
theorem C2_amended_thm (j : RawJob)
    (h1 : (pyTruthy j.salary_min && pyTruthy j.salary_max) = false)
    (h2 : salarySearch (pyLower j.description) = none) :
    ∃ a b, extract_salary j = (some a, some b) ∧ a ≤ b := by
  have e1 : salary_step1 j = (j.salary_min, j.salary_max) := by
    unfold salary_step1
    rw [if_neg (by simp [h1]), h2]
  obtain ⟨_, _, hle⟩ := salary_estimate_bounds j.title
  refine ⟨(salary_estimate j.title).1, (salary_estimate j.title).2, ?_, hle⟩
  unfold extract_salary
  rw [e1]
  simp [h1]

/-- C2 witness: the amended statement applied to a concrete posting with no
upstream salary and no salary text. -/
theorem C2_witness :
    ∃ a b, extract_salary rawC2w = (some a, some b) ∧ a ≤ b :=
  C2_amended_thm rawC2w (by decide) (by decide)

/-! ### Claim C3 -/

/-- C3: every normalized record carries both salary bounds and
salary_avg = (salary_min + salary_max) / 2 exactly; in particular scenario A,
a posting whose description contains `£50,000 - £80,000` and has no upstream
salary fields, is normalized to 50000 / 80000 / 65000. -/
theorem C3_thm :
    (∀ j : RawJob, ∃ a b,
        (processJob j).salary_min = some a ∧ (processJob j).salary_max = some b ∧
        (processJob j).salary_avg = some (((a : ℚ) + (b : ℚ)) / 2)) ∧
    (processJob rawC3).salary_min = some 50000 ∧
    (processJob rawC3).salary_max = some 80000 ∧
    (processJob rawC3).salary_avg = some 65000 := by
  constructor
  · intro j
    obtain ⟨a, b, he, ha, hb⟩ := extract_salary_shape j
    refine ⟨a, b, ?_, ?_, ?_⟩ <;>
      simp [processJob, he, pyTruthy, ratOfOpt, ha.ne', hb.ne']
  · refine ⟨by decide, by decide, ?_⟩
    have he : extract_salary rawC3 = (some 50000, some 80000) := by decide
    simp [processJob, he, pyTruthy, ratOfOpt]
    norm_num

/-! ### Claim C4 -/

/-- C4: deduplication output has pairwise-distinct (title, company) keys, is an
order-preserving sublist of its input, preserves the first entry found for
every key, loses no key — so it removes exactly the later-arriving duplicates —
and on scenario B, two postings titled `ML Engineer` at `Acme` with different
descriptions, only the first-fetched record survives. -/
theorem C4_thm :
    (∀ l : List Job, (drop_duplicates l).Pairwise fun a b => jobKey a ≠ jobKey b) ∧
    (∀ l : List Job, (drop_duplicates l).Sublist l) ∧
    (∀ (l : List Job) (k : List Char × List Char),
        (drop_duplicates l).find? (fun j => decide (jobKey j = k)) =
          l.find? fun j => decide (jobKey j = k)) ∧
    (∀ (l : List Job) (j : Job), j ∈ l →
        ∃ j2, j2 ∈ drop_duplicates l ∧ jobKey j2 = jobKey j) ∧
    process_jobs_data [rawML1, rawML2] = [processJob rawML1] := by
  refine ⟨fun l => dedupAux_pairwise [] l, fun l => dedupAux_sublist [] l,
    fun l k => dedupAux_find? [] l k (by simp), ?_, rfl⟩
  intro l j hj
  have hf : (l.find? fun j2 => decide (jobKey j2 = jobKey j)).isSome := by
    rw [List.find?_isSome]
    exact ⟨j, hj, by simp⟩
  obtain ⟨j2, hj2⟩ := Option.isSome_iff_exists.mp hf
  have hd : (drop_duplicates l).find? (fun j2 => decide (jobKey j2 = jobKey j)) =
      some j2 :=
    (dedupAux_find? [] l (jobKey j) (by simp)).trans hj2
  have hp := List.find?_some hd
  exact ⟨j2, List.mem_of_find?_eq_some hd, of_decide_eq_true (by simpa using hp)⟩

/-- C4 witness: the first-occurrence conjunct applied to a concrete collection. -/
theorem C4_witness :
    ∃ j2, j2 ∈ drop_duplicates [processJob rawML1, processJob rawML2] ∧
      jobKey j2 = jobKey (processJob rawML2) :=
  C4_thm.2.2.2.1 [processJob rawML1, processJob rawML2] (processJob rawML2)
    (List.mem_cons_of_mem _ (List.mem_cons_self _ _))

/-! ### Claim C5 -/

/-- C5: deduplication is idempotent — applied to its own output it returns that
output unchanged. -/
theorem C5_thm (l : List Job) :
    drop_duplicates (drop_duplicates l) = drop_duplicates l :=
  dedupAux_eq_self (dedupAux_pairwise [] l) [] (fun _ _ => by simp)

/-! ### Claim C6 -/

/-- C6 counterexample: the single-space string is not in the canonicalization
table, yet it is not passed through unchanged (it is stripped to the empty
string), and feeding that cleaner output back yields `UK`, refuting both the
pass-through and the stability part of the claim. -/
theorem C6_counterexample :
    clean_location (str " ") = str "" ∧
    str " " ≠ str "" ∧
    location_mapping.find? (fun p => p.1 == str " ") = none ∧
    clean_location (clean_location (str " ")) = str "UK" := by
  decide

/-- C6 (amended): location cleaning maps the empty string to `UK`; otherwise it
first strips surrounding whitespace, maps table keys to their canonical value,
and passes every unmapped stripped string through stripped; it is stable on
every input whose cleaned output is nonempty (only whitespace-only inputs,
cleaned to the empty string, re-clean differently, to `UK`). -/
theorem C6_amended_thm :
    clean_location (str "") = str "UK" ∧
    (∀ p ∈ location_mapping, clean_location p.1 = p.2) ∧
    (∀ s : List Char, truthyStr s = true →
        location_mapping.find? (fun p => p.1 == stripPy s) = none →
        clean_location s = stripPy s) ∧
    (∀ s : List Char, clean_location s ≠ [] →
        clean_location (clean_location s) = clean_location s) := by
  refine ⟨by decide, by decide, ?_, ?_⟩
  · intro s h1 h2
    simp only [clean_location, mapGetD]
    rw [if_neg (by simp [h1]), h2]
  · intro s hne
    by_cases h0 : truthyStr s = false
    · have hUK : clean_location s = str "UK" := by
        simp only [clean_location]
        rw [if_pos h0]
      rw [hUK]
      decide
    · have h1 : truthyStr s = true := by
        cases ht : truthyStr s with
        | false => exact absurd ht h0
        | true => rfl
      have hcs : clean_location s = mapGetD location_mapping (stripPy s) (stripPy s) := by
        simp only [clean_location]
        rw [if_neg (by simp [h1])]
      cases hf : location_mapping.find? fun p => p.1 == stripPy s with
      | some p =>
        have hmem : p ∈ location_mapping := List.mem_of_find?_eq_some hf
        have hcs2 : clean_location s = p.2 := by
          rw [hcs]
          simp only [mapGetD]
          rw [hf]
        rw [hcs2]
        have hvals : ∀ q ∈ location_mapping, clean_location q.2 = q.2 := by decide
        exact hvals p hmem
      | none =>
        have hcs2 : clean_location s = stripPy s := by
          rw [hcs]
          simp only [mapGetD]
          rw [hf]
        rw [hcs2] at hne ⊢
        have h1x : truthyStr (stripPy s) = true := by
          cases hsp : stripPy s with
          | nil => exact absurd hsp hne
          | cons c r => rfl
        simp only [clean_location]
        rw [if_neg (by simp [h1x]), stripPy_idem]
        simp only [mapGetD]
        rw [hf]

/-- C6 witness: the pass-through and stability conjuncts applied to concrete
location strings. -/
theorem C6_witness :
    clean_location (str "Sheffield") = stripPy (str "Sheffield") ∧
    clean_location (clean_location (str "Greater London")) =
      clean_location (str "Greater London") :=
  ⟨C6_amended_thm.2.2.1 (str "Sheffield") (by decide) (by decide),
   C6_amended_thm.2.2.2 (str "Greater London") (by decide)⟩

/-! ### Claim C7 -/

/-- C7: for every description the extracted skill list has at most six entries,
no duplicates, lists skills in the order of the fixed vocabulary, and every
entry is the title-cased form of a vocabulary keyword found in the lowercased
description; moreover it is exactly the first six entries of the full match
list `found_skills` (so its length is the minimum of six and the number of
matches), and every matched vocabulary keyword appears, title-cased, in that
full match list — no match is dropped before the cap. -/
theorem C7_thm (d : List Char) :
    (extract_skills d).length ≤ 6 ∧
    (extract_skills d).Nodup ∧
    (extract_skills d).Sublist (skill_keywords.map pyTitle) ∧
    (∀ s ∈ extract_skills d, ∃ k, k ∈ skill_keywords ∧ s = pyTitle k ∧
      isSub k (pyLower d) = true) ∧
    extract_skills d = (found_skills d).take 6 ∧
    (extract_skills d).length = min 6 (found_skills d).length ∧
    ∀ k ∈ skill_keywords, isSub k (pyLower d) = true →
      pyTitle k ∈ found_skills d := by
  have hsub : (extract_skills d).Sublist (skill_keywords.map pyTitle) := by
    simp only [extract_skills]
    exact (List.take_sublist _ _).trans (List.Sublist.map pyTitle (List.filter_sublist _))
  have hnodup : (skill_keywords.map pyTitle).Nodup := by decide
  refine ⟨?_, hnodup.sublist hsub, hsub, ?_, rfl, ?_, ?_⟩
  · simp only [extract_skills]
    exact List.length_take_le _ _
  · intro s hs
    simp only [extract_skills] at hs
    have hs2 := (List.take_sublist _ _).subset hs
    obtain ⟨k, hk, rfl⟩ := List.mem_map.mp hs2
    obtain ⟨hk1, hk2⟩ := List.mem_filter.mp hk
    exact ⟨k, hk1, rfl, by simpa using hk2⟩
  · simp only [extract_skills, found_skills]
    exact List.length_take _ _
  · intro k hk hmatch
    exact List.mem_map_of_mem pyTitle (List.mem_filter.mpr ⟨hk, by simpa using hmatch⟩)

/-- C7 witness: the per-entry membership conjunct and the no-match-dropped
conjunct applied to a concrete description and skill keyword. -/
theorem C7_witness :
    (∃ k, k ∈ skill_keywords ∧ str "Python" = pyTitle k ∧
      isSub k (pyLower (str "We use Python daily")) = true) ∧
    pyTitle (str "python") ∈ found_skills (str "We use Python daily") :=
  ⟨(C7_thm (str "We use Python daily")).2.2.2.1 (str "Python") (by decide),
   (C7_thm (str "We use Python daily")).2.2.2.2.2.2 (str "python") (by decide) (by decide)⟩

/-! ### Claim C8 -/

/-- C8: for every title and description the three classifiers return a value
from their enumerated sets — never null and never free text. -/
theorem C8_thm (title description : List Char) :
    classify_job_category title description ∈
      [str "Research", str "Product & Management", str "Specialized",
       str "Data Science", str "Engineering"] ∧
    extract_experience_level title description ∈
      [str "Entry", str "Mid", str "Senior", str "Lead", str "Principal"] ∧
    extract_work_type description ∈
      [str "Remote", str "Hybrid", str "On-site"] := by
  refine ⟨?_, ?_, ?_⟩
  · simp only [classify_job_category]
    split_ifs <;> decide
  · simp only [extract_experience_level]
    split_ifs <;> decide
  · simp only [extract_work_type]
    split_ifs <;> decide

/-! ### Claim C9 -/

/-- C9: date parsing accepts an ISO-8601 timestamp with a `Z` suffix, and every
unparseable creation date — including a missing one — yields the
one-day-before-now fallback value instead of an exception (the function is
total). -/
theorem C9_thm :
    parse_date (some (str "2024-01-15T10:30:00Z")) =
      DateResult.parsed ⟨2024, 1, 15, 10, 30, 0, 0, some 0⟩ ∧
    parse_date none = DateResult.yesterday ∧
    ∀ s : List Char, fromisoformat (replaceZ s) = none →
      parse_date (some s) = DateResult.yesterday := by
  refine ⟨by decide, rfl, ?_⟩
  intro s h
  simp only [parse_date, h]

/-- C9 witness: the fallback conjunct applied to a concrete unparseable date
string. -/
theorem C9_witness :
    parse_date (some (str "next Tuesday")) = DateResult.yesterday :=
  C9_thm.2.2 (str "next Tuesday") (by decide)

/-! ### Claim C10 -/

/-- C10: salary extraction is total and always yields two positive bounds, so
every normalized record has salary_min, salary_max and salary_avg present; and
whenever either upstream bound is missing or zero, both upstream values are
discarded — the result is the same as if neither had been present. -/
theorem C10_thm :
    (∀ j : RawJob, ∃ a b, extract_salary j = (some a, some b) ∧ 0 < a ∧ 0 < b) ∧
    (∀ j : RawJob, (processJob j).salary_min.isSome = true ∧
        (processJob j).salary_max.isSome = true ∧
        (processJob j).salary_avg.isSome = true) ∧
    (∀ j : RawJob, (pyTruthy j.salary_min && pyTruthy j.salary_max) = false →
        extract_salary j = extract_salary (clearSalary j)) := by
  refine ⟨extract_salary_shape, ?_, fun j h => extract_salary_ignores_partial j h⟩
  intro j
  obtain ⟨a, b, he, ha, hb⟩ := extract_salary_shape j
  refine ⟨?_, ?_, ?_⟩ <;>
    simp [processJob, he, pyTruthy, ratOfOpt, ha.ne', hb.ne']

/-- C10 witness: the upstream-discarding conjunct applied to a posting with a
partially-present upstream salary. -/
theorem C10_witness :
    extract_salary rawC10 = extract_salary (clearSalary rawC10) :=
  C10_thm.2.2 rawC10 (by decide)

end Navada
